import Mathlib

/-!
Verification of the match-query planner of this repository
(src/compiler/executable/match_/planner/). The Rust source is shallowly
embedded: f64 is modelled as ℚ (the claims under study are algebraic and
do not involve rounding, NaN or infinities), HashSet/HashMap iteration is
made explicit as lists in iteration order, and panics (unwrap, todo!,
unreachable!) are modelled as Option/Except failures.

The files vertex/constraint.rs and vertex/variable.rs are declared by
vertex/mod.rs but are not present in the source tree; the pieces of
ConstraintVertex and VariableVertex that the claims need are modelled
from the spec (see the doc comments marked "Modelled from the spec").
-/

attribute [local semireducible] Rat.add Rat.mul Rat.sub Rat.inv

namespace Planner

/-- ElementCost from vertex/mod.rs: per_input, per_output and the source
field io_ratio (expected outputs per input), called ioFactor here. -/
structure ElementCost where
  per_input : ℚ
  per_output : ℚ
  ioFactor : ℚ
deriving DecidableEq

namespace ElementCost

/-- Source constant IN_MEM_COST_SIMPLE = 0.01. -/
def IN_MEM_COST_SIMPLE : ℚ := 1 / 100

/-- Source constant IN_MEM_COST_COMPLEX = IN_MEM_COST_SIMPLE * 2.0. -/
def IN_MEM_COST_COMPLEX : ℚ := IN_MEM_COST_SIMPLE * 2

/-- ElementCost::EMPTY. -/
def EMPTY : ElementCost := { per_input := 0, per_output := 0, ioFactor := 0 }

/-- ElementCost::NOOP. -/
def NOOP : ElementCost := { per_input := 0, per_output := 0, ioFactor := 1 }

/-- ElementCost::MEM_SIMPLE_BRANCH_1. -/
def MEM_SIMPLE_BRANCH_1 : ElementCost :=
  { per_input := IN_MEM_COST_SIMPLE, per_output := IN_MEM_COST_SIMPLE, ioFactor := 1 }

/-- ElementCost::MEM_COMPLEX_BRANCH_1. -/
def MEM_COMPLEX_BRANCH_1 : ElementCost :=
  { per_input := IN_MEM_COST_COMPLEX, per_output := IN_MEM_COST_COMPLEX, ioFactor := 1 }

/-- ElementCost::chain (vertex/mod.rs lines 150-156). -/
def chain (self other : ElementCost) : ElementCost :=
  { per_input := self.per_input + other.per_input * self.ioFactor
    per_output := self.per_output / other.ioFactor + other.per_output
    ioFactor := self.ioFactor * other.ioFactor }

/-- ElementCost::combine_parallel (vertex/mod.rs lines 158-167). -/
def combine_parallel (self other : ElementCost) : ElementCost :=
  { per_input := self.per_input + other.per_input
    per_output := (self.per_output * self.ioFactor + other.per_output * other.ioFactor) /
      (self.ioFactor + other.ioFactor)
    ioFactor := self.ioFactor + other.ioFactor }

/-- ElementCost::total. -/
def total (self : ElementCost) : ℚ := self.per_input + self.per_output * self.ioFactor

end ElementCost

/-- CombinedCost from vertex/mod.rs: cost (already per input) and the source
field io_ratio, called ioFactor here. -/
structure CombinedCost where
  cost : ℚ
  ioFactor : ℚ
deriving DecidableEq

namespace CombinedCost

/-- Source constant MIN_IO_RATIO = 0.000000001. -/
def minIoFloor : ℚ := 1 / 1000000000

/-- Source constant IN_MEM_COST_SIMPLE = 0.02 (CombinedCost variant). -/
def IN_MEM_COST_SIMPLE : ℚ := 1 / 50

/-- Source constant IN_MEM_COST_COMPLEX = IN_MEM_COST_SIMPLE * 2.0. -/
def IN_MEM_COST_COMPLEX : ℚ := IN_MEM_COST_SIMPLE * 2

/-- CombinedCost::NOOP. -/
def NOOP : CombinedCost := { cost := 0, ioFactor := 1 }

/-- CombinedCost::EMPTY. -/
def EMPTY : CombinedCost := { cost := 0, ioFactor := 0 }

/-- CombinedCost::MEM_SIMPLE_BRANCH_1. -/
def MEM_SIMPLE_BRANCH_1 : CombinedCost := { cost := IN_MEM_COST_SIMPLE, ioFactor := 1 }

/-- CombinedCost::MEM_COMPLEX_BRANCH_1. -/
def MEM_COMPLEX_BRANCH_1 : CombinedCost := { cost := IN_MEM_COST_COMPLEX, ioFactor := 1 }

/-- CombinedCost::chain (vertex/mod.rs lines 198-203). -/
def chain (self other : CombinedCost) : CombinedCost :=
  { cost := self.cost + other.cost * self.ioFactor
    ioFactor := max (self.ioFactor * other.ioFactor) minIoFloor }

/-- CombinedCost::join (vertex/mod.rs lines 205-210): cost is additive, the
io factor is divided by the join size and clamped below at MIN_IO_RATIO. -/
def join (self other : CombinedCost) (join_size : ℚ) : CombinedCost :=
  { cost := self.cost + other.cost
    ioFactor := max (self.ioFactor * other.ioFactor / join_size) minIoFloor }

/-- CombinedCost::combine_parallel (vertex/mod.rs lines 212-214). -/
def combine_parallel (self other : CombinedCost) : CombinedCost :=
  { cost := self.cost + other.cost, ioFactor := self.ioFactor + other.ioFactor }

end CombinedCost

/-- VariableVertexId / PatternVertexId are newtyped usize in plan.rs; both are
modelled as Nat. VertexId is the tagged union from plan.rs lines 252-256. -/
inductive VertexId where
  | Variable (v : Nat)
  | Pattern (p : Nat)
deriving DecidableEq

/-- VertexId::as_variable_id. -/
def VertexId.asVariableId : VertexId → Option Nat
  | .Variable v => some v
  | .Pattern _ => none

/-- VertexId::as_pattern_id. -/
def VertexId.asPatternId : VertexId → Option Nat
  | .Variable _ => none
  | .Pattern p => some p

/-- Direction from vertex/mod.rs lines 284-288. -/
inductive Direction where
  | canonical
  | reverse
deriving DecidableEq

/-- CostMetaData from vertex/mod.rs lines 275-282; the source variant None is
called noMetaData here. -/
inductive CostMetaData where
  | direction (d : Direction)
  | noMetaData
deriving DecidableEq

/-- Modelled from the spec: vertex/variable.rs is missing from the source
tree. A VariableVertex is the per-variable planner; the claims need only
whether it is an Input planner (spec 3: Input = pre-bound) and its
expected_output_size estimate used as the join size in
PlanStepPartial::evaluate_joinability (spec: "Join size: cardinality
estimate of the variable being joined on"), kept abstract as a function of
the inlined vertex ordering. -/
structure VariableVertex where
  isInput : Bool
  expectedOutputSize : List VertexId → ℚ

/-- Modelled from the spec: vertex/constraint.rs is missing from the source
tree. A ConstraintVertex carries its participating variables (variables(),
in iterator order), the direction chosen for an unbound scan
(unbound_direction, spec 4.3: "constraints like has can be iterated
canonical or reverse; the cheaper side"), its Costed::cost function (spec
4.3: cost from schema statistics, kept abstract), and the result of
cost_and_metadata (spec 4.3: "Constraint vertices compute both canonical
and reverse costs, pick the cheaper, and emit Direction"). -/
structure ConstraintVertex where
  vars : List Nat
  unboundDir : Direction
  costFn : List VertexId → Option Nat → Nat → ElementCost
  combined : CombinedCost
  metaData : CostMetaData

/-- PlannerVertex from vertex/mod.rs lines 38-51. The Is planner is the
Is constructor; Comparison operands are Input::Variable (some) or
Input::Fixed (none); function calls carry the costs fixed at registration
(plan.rs lines 561-563); a negation carries its pre-planned conjunction
cost (ConjunctionPlan::cost); a disjunction carries the Costed::cost
computation over its branches abstracted as a function of the inputs. -/
inductive PlannerVertex where
  | Variable (vv : VariableVertex)
  | Constraint (c : ConstraintVertex)
  | Is (lhs rhs : Nat)
  | Comparison (lhs rhs : Option Nat)
  | Expression (inputs : List Nat) (output : Nat)
  | FunctionCall (arguments assigned : List Nat) (cost : ElementCost) (combined : CombinedCost)
  | Negation (shared : List Nat) (planCost : ElementCost)
  | Disjunction (inputVars shared : List Nat) (costFn : List VertexId → ElementCost)

/-- PlannerVertex::variables (vertex/mod.rs lines 69-80), flattened to a
list in iterator order. -/
def PlannerVertex.variablesList : PlannerVertex → List Nat
  | .Variable _ => []
  | .Constraint c => c.vars
  | .Is lhs rhs => [lhs, rhs]
  | .Comparison lhs rhs => lhs.toList ++ rhs.toList
  | .Expression inputs output => inputs ++ [output]
  | .FunctionCall arguments assigned _ _ => arguments ++ assigned
  | .Negation shared _ => shared
  | .Disjunction inputVars shared _ => inputVars ++ shared

/-- Membership of a variable id in an ordered vertex list
(ordered.contains(&VertexId::Variable(v)) in the source). -/
def memVar (ordered : List VertexId) (v : Nat) : Bool :=
  decide (VertexId.Variable v ∈ ordered)

/-- PlannerVertex::is_valid (vertex/mod.rs lines 54-67) together with the
per-kind implementations:
a Variable is never directly chosen (false, line 56);
Is requires at least one side ordered (lines 417-419);
Comparison requires every variable operand ordered (lines 461-473);
Expression requires all inputs ordered (lines 332-334);
FunctionCall requires all arguments ordered (lines 61-63);
Negation requires all shared variables ordered (lines 512-514);
Disjunction requires all of its input_variables ordered (lines 558-560).
The Constraint case is modelled from the spec (vertex/constraint.rs is
missing): "Constraint: at least one participating variable must already be
ordered, OR the constraint is free (no variables)" (spec 4.3). -/
def PlannerVertex.isValid (pv : PlannerVertex) (ordered : List VertexId) : Bool :=
  match pv with
  | .Variable _ => false
  | .Constraint c => c.vars.isEmpty || c.vars.any (memVar ordered)
  | .Is lhs rhs => memVar ordered lhs || memVar ordered rhs
  | .Comparison lhs rhs => lhs.all (memVar ordered) && rhs.all (memVar ordered)
  | .Expression inputs _ => inputs.all (memVar ordered)
  | .FunctionCall arguments _ _ _ => arguments.all (memVar ordered)
  | .Negation shared _ => shared.all (memVar ordered)
  | .Disjunction inputVars _ _ => inputVars.all (memVar ordered)

/-- Costed::cost dispatch (vertex/mod.rs lines 236-256) with the per-kind
results: Variable is NOOP; Is and Comparison are MEM_SIMPLE_BRANCH_1
(lines 431-433, 485-493); Expression is MEM_COMPLEX_BRANCH_1 (line 327);
FunctionCall and Negation return their stored costs; Disjunction combines
its branch plans (abstracted as its stored function of the inputs);
Constraint dispatches to the modelled cost function. -/
def PlannerVertex.costOf (pv : PlannerVertex) (inputs : List VertexId)
    (sortVariable : Option Nat) (stepStartIndex : Nat) : ElementCost :=
  match pv with
  | .Variable _ => ElementCost.NOOP
  | .Constraint c => c.costFn inputs sortVariable stepStartIndex
  | .Is _ _ => ElementCost.MEM_SIMPLE_BRANCH_1
  | .Comparison _ _ => ElementCost.MEM_SIMPLE_BRANCH_1
  | .Expression _ _ => ElementCost.MEM_COMPLEX_BRANCH_1
  | .FunctionCall _ _ cost _ => cost
  | .Negation _ planCost => planCost
  | .Disjunction _ _ costFn => costFn inputs

/-- Costed::cost_and_metadata dispatch (vertex/mod.rs lines 258-272).
Variable is unreachable!() (none); Is, Comparison and Expression return
MEM_COMPLEX_BRANCH_1 with no metadata (lines 435-437, 495-497, 352-354);
FunctionCall returns its stored combined cost; Constraint returns its
stored (combined, metadata) pair (modelled, vertex/constraint.rs missing);
Negation and Disjunction call ConjunctionPlan::combined_cost which is
todo!() in plan.rs, i.e. they panic (none). -/
def PlannerVertex.costAndMetadata (pv : PlannerVertex) (_vertexOrdering : List VertexId) :
    Option (CombinedCost × CostMetaData) :=
  match pv with
  | .Variable _ => none
  | .Constraint c => some (c.combined, c.metaData)
  | .Is _ _ => some (CombinedCost.MEM_COMPLEX_BRANCH_1, CostMetaData.noMetaData)
  | .Comparison _ _ => some (CombinedCost.MEM_COMPLEX_BRANCH_1, CostMetaData.noMetaData)
  | .Expression _ _ => some (CombinedCost.MEM_COMPLEX_BRANCH_1, CostMetaData.noMetaData)
  | .FunctionCall _ _ _ combined => some (combined, CostMetaData.noMetaData)
  | .Negation _ _ => none
  | .Disjunction _ _ _ => none

/-- DisjunctionPlanner::from_builder (vertex/mod.rs lines 548-556): the
input_variables list is initialised to Vec::new() and the shared variables
are collected from the branches. -/
def disjunctionFromBuilder (shared : List Nat) (costFn : List VertexId → ElementCost) :
    PlannerVertex :=
  PlannerVertex.Disjunction [] shared costFn

/-- The planner Graph (plan.rs lines 1714-1725), restricted to what the
planning passes read: the id-to-vertex element map (as an association list)
and the iteration order of input_variables() (plan.rs lines 323-329). -/
structure Graph where
  elements : List (VertexId × PlannerVertex)
  inputVars : List Nat

/-- Lookup in graph.elements (indexing panics in the source are surfaced as
none). -/
def Graph.find (g : Graph) (id : VertexId) : Option PlannerVertex :=
  (g.elements.find? (fun e => e.1 == id)).map (fun e => e.2)

/-- The mutable state of ConjunctionPlanBuilder::initialise_greedy_ordering
(plan.rs lines 631-648): the remaining vertex set (HashSet; modelled as a
list in iteration order), the vertex plan under construction, the open
step's produced variables (HashSet; modelled in insertion order), start
index, sort variable, and the constraint direction map (HashMap; modelled
in insertion order). -/
structure GreedyState where
  remaining : List VertexId
  plan : List VertexId
  produced : List Nat
  startIdx : Nat
  sortVar : Option Nat
  dirs : List (Nat × Direction)

/-- One conditional push of a produced variable inside the finalize_step
macro (plan.rs lines 656-661): the pair is (vertex_plan,
remaining_vertices). -/
def pushProducedVar (acc : List VertexId × List VertexId) (v : Nat) :
    List VertexId × List VertexId :=
  if VertexId.Variable v ∈ acc.1 then acc
  else (acc.1 ++ [VertexId.Variable v], acc.2.erase (VertexId.Variable v))

/-- The finalize_step macro (plan.rs lines 650-664): append the taken sort
variable, then every produced variable not yet in the plan, reset the
produced set and record the new step start index. -/
def finalizeStep (st : GreedyState) : GreedyState :=
  let pr1 : List VertexId × List VertexId :=
    match st.sortVar with
    | some v => (st.plan ++ [VertexId.Variable v], st.remaining.erase (VertexId.Variable v))
    | none => (st.plan, st.remaining)
  let pr2 := st.produced.foldl pushProducedVar pr1
  { st with plan := pr2.1, remaining := pr2.2, produced := [], sortVar := none,
            startIdx := pr2.1.length }

/-- HashSet::extend of step_produced_variables (plan.rs lines 692-693),
modelled as an insertion-ordered deduplicating append. -/
def extendProduced (produced : List Nat) (vs : List Nat) : List Nat :=
  vs.foldl (fun acc v => if v ∈ acc then acc else acc ++ [v]) produced

/-- ConjunctionPlanBuilder::calculate_marginal_cost (plan.rs lines 729-741):
per_input + branching_factor * per_output of the candidate's Costed::cost.
(The source assert that the plan does not contain the candidate cannot fire:
remaining vertices are disjoint from the plan.) A lookup failure yields 0;
the greedy loop only scores vertices present in the graph. -/
def calculateMarginalCost (g : Graph) (plan : List VertexId) (next : VertexId)
    (sortVariable : Option Nat) (stepStartIndex : Nat) : ℚ :=
  match g.find next with
  | some pv =>
    let e := pv.costOf plan sortVariable stepStartIndex
    e.per_input + e.ioFactor * e.per_output
  | none => 0

/-- One comparison step of Iterator::min_by with total_cmp on the cost
(plan.rs line 683): keep the current best unless the new candidate is
strictly cheaper. -/
def chooseMinStep (acc : Option (VertexId × ℚ)) (c : VertexId × ℚ) : Option (VertexId × ℚ) :=
  match acc with
  | none => some c
  | some b => if c.2 < b.2 then some c else some b

/-- Iterator::min_by over (candidate, cost) pairs with total_cmp on the cost
(plan.rs lines 672-684): of several equally minimal candidates the first one
in iteration order is kept. -/
def chooseMin (cands : List (VertexId × ℚ)) : Option (VertexId × ℚ) :=
  cands.foldl chooseMinStep none

/-- Candidate selection of one greedy iteration (plan.rs lines 669-687):
filter the remaining vertices by is_valid against the current plan, score
each by marginal cost, take the minimum (min_by; unwrap on an empty
candidate set is a panic, modelled as none) and look its element up. -/
def greedyCandidates (g : Graph) (st : GreedyState) : List (VertexId × ℚ) :=
  (st.remaining.filter (fun e =>
    match g.find e with
    | some pv => pv.isValid st.plan
    | none => false)).map
    (fun e => (e, calculateMarginalCost g st.plan e st.sortVar st.startIdx))

/-- The minimum-marginal-cost choice of one greedy iteration together with
its planner vertex (plan.rs lines 672-687; the unwrap on an empty candidate
set is a panic, modelled as none). -/
def greedyChoose (g : Graph) (st : GreedyState) : Option (VertexId × PlannerVertex) :=
  match chooseMin (greedyCandidates g st) with
  | none => none
  | some (next, _) => (g.find next).map (fun pv => (next, pv))

/-- The is_constraint branch of the greedy loop (plan.rs lines 691-713):
extend the step's produced variables with the constraint's not-yet-planned
variables, set the step sort variable to the first (canonical direction) or
second (reverse) variable of the constraint when it is produced within the
step, record the unbound direction, push the pattern, remove it from the
remaining set, and immediately finalize the step. -/
def greedyConstraintPre (st : GreedyState) (next : VertexId)
    (c : ConstraintVertex) : GreedyState :=
  let produced1 := extendProduced st.produced
    (c.vars.filter (fun v => decide (VertexId.Variable v ∉ st.plan)))
  let sortVar1 :=
    match (if c.unboundDir = Direction.canonical then c.vars.head? else c.vars.get? 1) with
    | some cand => if cand ∈ produced1 then some cand else st.sortVar
    | none => st.sortVar
  let dirs1 :=
    match next.asPatternId with
    | some p => st.dirs ++ [(p, c.unboundDir)]
    | none => st.dirs
  { st with produced := produced1, sortVar := sortVar1, dirs := dirs1,
            plan := st.plan ++ [next], remaining := st.remaining.erase next }

/-- The is_constraint branch finishes by finalizing the step it just
extended (plan.rs line 713). -/
def greedyConstraintStep (_g : Graph) (st : GreedyState) (next : VertexId)
    (c : ConstraintVertex) : GreedyState :=
  finalizeStep (greedyConstraintPre st next c)

/-- One conditional variable push of the catch-all branch (plan.rs lines
718-722). -/
def pushPlanVar (pl : List VertexId) (v : Nat) : List VertexId :=
  if VertexId.Variable v ∈ pl then pl else pl ++ [VertexId.Variable v]

/-- The catch-all branch of the greedy loop (plan.rs lines 714-723): finalize
the step, push the pattern, remove it from the remaining set, and push each
of its variables not yet in the plan. -/
def greedyOtherStep (st : GreedyState) (next : VertexId) (pv : PlannerVertex) : GreedyState :=
  let st1 := finalizeStep st
  { st1 with plan := pv.variablesList.foldl pushPlanVar (st1.plan ++ [next])
             remaining := st1.remaining.erase next }

/-- The greedy loop of initialise_greedy_ordering (plan.rs lines 669-726),
with explicit fuel standing for the loop's termination (each iteration other
than the dead is_variable branch removes the chosen pattern from the
remaining set). -/
def greedyGo (g : Graph) : Nat → GreedyState → Option (List VertexId × List (Nat × Direction))
  | 0, st => if st.remaining.isEmpty then some (st.plan, st.dirs) else none
  | Nat.succ fuel, st =>
    if st.remaining.isEmpty then some (st.plan, st.dirs)
    else
      match greedyChoose g st with
      | none => none
      | some (next, pv) =>
        match pv with
        | PlannerVertex.Variable _ => greedyGo g fuel (finalizeStep st)
        | PlannerVertex.Constraint c => greedyGo g fuel (greedyConstraintStep g st next c)
        | _ => greedyGo g fuel (greedyOtherStep st next pv)

/-- ConjunctionPlanBuilder::initialise_greedy_ordering (plan.rs lines
631-727). The remaining set holds exactly the pattern vertices
(pattern_to_variable.keys()); its HashSet iteration order is the explicit
parameter patternIter (the hash seed is not part of the planner's input).
The plan starts with the input variables in their iteration order. -/
def initialiseGreedyOrdering (g : Graph) (patternIter : List Nat) :
    Option (List VertexId × List (Nat × Direction)) :=
  greedyGo g patternIter.length
    { remaining := patternIter.map VertexId.Pattern
      plan := g.inputVars.map VertexId.Variable
      produced := []
      startIdx := 0
      sortVar := none
      dirs := [] }

/-- The portion of the beam search's PlanStepPartial (plan.rs lines 962-971)
read by evaluate_joinability: the parent plan's inlined vertex ordering, the
step cost so far, the step's join variable, and the step's produced
variables (a hash set, modelled as a list with membership). -/
structure PartialPlanStep where
  parentInlined : List VertexId
  stepCost : CombinedCost
  joinVariable : Option Nat
  producedVariables : List Nat

/-- The joinability test at the top of PlanStepPartial::evaluate_joinability
(plan.rs lines 1047-1060): the pattern's variables that are produced by the
step must be exactly one (itertools exactly_one), and when the step already
has a join variable the candidate must equal it. -/
def joinCandidateOf (s : PartialPlanStep) (pv : PlannerVertex) : Option Nat :=
  match pv.variablesList.filter (fun v => decide (v ∈ s.producedVariables)) with
  | [x] =>
    if s.joinVariable = none then some x
    else if s.joinVariable = some x then some x
    else none
  | _ => none

/-- PlanStepPartial::evaluate_joinability (plan.rs lines 1040-1089),
returning the updated step cost, the extension metadata and the join
variable. For a joinable constraint the step cost is joined with the
constraint cost at the join variable's expected output size; for a joinable
comparison the step cost becomes CombinedCost::NOOP; every other vertex
kind never joins (join_variable is reset to None) and is costed by
cost_and_metadata. Source panics (missing graph entries, unreachable
variable costing, and the todo!() inside ConjunctionPlan::combined_cost
reached for negations and disjunctions) are surfaced as none. -/
def evaluateJoinability (g : Graph) (s : PartialPlanStep) (pattern : Nat) :
    Option (CombinedCost × CostMetaData × Option Nat) :=
  match g.find (VertexId.Pattern pattern) with
  | none => none
  | some pv =>
    match pv with
    | PlannerVertex.Constraint c =>
      match joinCandidateOf s pv with
      | some v =>
        match g.find (VertexId.Variable v) with
        | some (PlannerVertex.Variable vv) =>
          some (s.stepCost.join c.combined (vv.expectedOutputSize s.parentInlined),
                c.metaData, some v)
        | _ => none
      | none => some (c.combined, c.metaData, none)
    | PlannerVertex.Comparison _ _ =>
      match joinCandidateOf s pv with
      | some v => some (CombinedCost.NOOP, CostMetaData.noMetaData, some v)
      | none => some (CombinedCost.MEM_COMPLEX_BRANCH_1, CostMetaData.noMetaData, none)
    | _ =>
      (pv.costAndMetadata s.parentInlined).map (fun cm => (cm.1, cm.2, (none : Option Nat)))

/-- VariableCategory from the ir crate as matched by
ConjunctionPlanBuilder::register_variables (plan.rs lines 362-380). -/
inductive VariableCategory where
  | typeCat
  | thingType
  | attributeType
  | roleType
  | thing
  | object
  | attribute
  | value
  | objectList
  | thingList
  | attributeList
  | valueList
  | attributeOrValue
deriving DecidableEq

/-- Comparator from the ir crate as matched by
ConjunctionPlanBuilder::register_comparison (plan.rs lines 591-598). -/
inductive Comparator where
  | equal
  | notEqual
  | less
  | lessOrEqual
  | greater
  | greaterOrEqual
  | like
  | containsCmp
deriving DecidableEq

/-- NestedPattern variants matched by make_builder (plan.rs lines 115-148). -/
inductive NestedPatternKind where
  | disjunction
  | negation
  | optionalPattern
deriving DecidableEq

/-- The unsupported planner features named by the todo! messages in plan.rs
("list variable planning", "like operator", "contains operator"). -/
inductive UnsupportedFeature where
  | listVariablePlanning
  | likeOperator
  | containsOperator
deriving DecidableEq

/-- How planning fails: a typed error value carrying the feature (the
failure mode the spec describes), a todo! panic with its optional message,
or an unreachable! panic. -/
inductive PlannerFailure where
  | typedError (feature : UnsupportedFeature)
  | todoPanic (message : Option UnsupportedFeature)
  | unreachablePanic
deriving DecidableEq

/-- Whether a failure is a typed error value (as opposed to a panic). -/
def PlannerFailure.isTypedError : PlannerFailure → Bool
  | .typedError _ => true
  | _ => false

/-- Which register_*_var helper register_variables dispatches to. -/
inductive RegisterAction where
  | typeVar
  | thingVar
  | valueVar
deriving DecidableEq

/-- The bound recorded on a variable planner by register_comparison. -/
inductive BoundEffect where
  | addEqual
  | noEffect
  | addUpperBound
  | addLowerBound
deriving DecidableEq

/-- What make_builder does with a nested pattern. -/
inductive NestedAction where
  | disjunctionBuilders
  | negationSubplan
deriving DecidableEq

/-- The category dispatch of ConjunctionPlanBuilder::register_variables
(plan.rs lines 362-381, identical in the shared and local passes): type
categories register a type var, thing categories a thing var, Value a value
var; the four list categories hit todo!("list variable planning") and
AttributeOrValue hits unreachable!. -/
def registerVariableCategory : VariableCategory → Except PlannerFailure RegisterAction
  | .typeCat => Except.ok RegisterAction.typeVar
  | .thingType => Except.ok RegisterAction.typeVar
  | .attributeType => Except.ok RegisterAction.typeVar
  | .roleType => Except.ok RegisterAction.typeVar
  | .thing => Except.ok RegisterAction.thingVar
  | .object => Except.ok RegisterAction.thingVar
  | .attribute => Except.ok RegisterAction.thingVar
  | .value => Except.ok RegisterAction.valueVar
  | .objectList => Except.error (PlannerFailure.todoPanic (some UnsupportedFeature.listVariablePlanning))
  | .thingList => Except.error (PlannerFailure.todoPanic (some UnsupportedFeature.listVariablePlanning))
  | .attributeList => Except.error (PlannerFailure.todoPanic (some UnsupportedFeature.listVariablePlanning))
  | .valueList => Except.error (PlannerFailure.todoPanic (some UnsupportedFeature.listVariablePlanning))
  | .attributeOrValue => Except.error PlannerFailure.unreachablePanic

/-- The comparator dispatch of ConjunctionPlanBuilder::register_comparison
(plan.rs lines 591-598 and 602-609), performed for each comparison operand
that is a variable: Equal adds an equality, NotEqual has no effect, Less and
LessOrEqual add an upper bound, Greater and GreaterOrEqual a lower bound;
Like hits todo!("like operator") and Contains hits
todo!("contains operator"). -/
def registerComparatorEffect : Comparator → Except PlannerFailure BoundEffect
  | .equal => Except.ok BoundEffect.addEqual
  | .notEqual => Except.ok BoundEffect.noEffect
  | .less => Except.ok BoundEffect.addUpperBound
  | .lessOrEqual => Except.ok BoundEffect.addUpperBound
  | .greater => Except.ok BoundEffect.addLowerBound
  | .greaterOrEqual => Except.ok BoundEffect.addLowerBound
  | .like => Except.error (PlannerFailure.todoPanic (some UnsupportedFeature.likeOperator))
  | .containsCmp => Except.error (PlannerFailure.todoPanic (some UnsupportedFeature.containsOperator))

/-- The nested-pattern dispatch of make_builder (plan.rs lines 115-148):
disjunctions collect branch builders, negations are pre-planned, and
NestedPattern::Optional hits a bare todo!() with no message. -/
def planNestedPattern : NestedPatternKind → Except PlannerFailure NestedAction
  | .disjunction => Except.ok NestedAction.disjunctionBuilders
  | .negation => Except.ok NestedAction.negationSubplan
  | .optionalPattern => Except.error (PlannerFailure.todoPanic none)

/-- Every pattern vertex of the ordering satisfies is_valid against the
strict prefix of the ordering before it. -/
def ValidPlacement (g : Graph) (ordering : List VertexId) : Prop :=
  ∀ i p pv, ordering.get? i = some (VertexId.Pattern p) →
    g.find (VertexId.Pattern p) = some pv →
    pv.isValid (ordering.take i) = true

/-- A constant Costed::cost function used by the concrete example graphs:
every scan costs per_input 1, per_output 1 at branching factor 1. -/
def exCostFn : List VertexId → Option Nat → Nat → ElementCost :=
  fun _ _ _ => { per_input := 1, per_output := 1, ioFactor := 1 }

/-- An example non-input variable planner with unit size estimate. -/
def exVarPlain : VariableVertex :=
  { isInput := false, expectedOutputSize := fun _ => 1 }

/-- An example input variable planner. -/
def exVarInput : VariableVertex :=
  { isInput := true, expectedOutputSize := fun _ => 1 }

/-- Example graph A: input variable 1; pattern 0 is a constraint over
variables [1, 0] scanned in reverse direction (so its second variable 0 is
the sort-variable candidate); pattern 1 is a constraint over variable [0]
in canonical direction. Pattern 1 shares the sort variable 0 that pattern 0
produces. -/
def exGraphA : Graph :=
  { elements :=
      [ (VertexId.Variable 1, PlannerVertex.Variable exVarInput)
      , (VertexId.Variable 0, PlannerVertex.Variable exVarPlain)
      , (VertexId.Pattern 0, PlannerVertex.Constraint
          { vars := [1, 0], unboundDir := Direction.reverse, costFn := exCostFn
            combined := { cost := 1, ioFactor := 1 }
            metaData := CostMetaData.direction Direction.reverse })
      , (VertexId.Pattern 1, PlannerVertex.Constraint
          { vars := [0], unboundDir := Direction.canonical, costFn := exCostFn
            combined := { cost := 1, ioFactor := 1 }
            metaData := CostMetaData.direction Direction.canonical }) ]
    inputVars := [1] }

/-- The ordering the greedy planner produces on example graph A with
pattern iteration order [0, 1]. -/
def exOrdA : List VertexId :=
  [VertexId.Variable 1, VertexId.Pattern 0, VertexId.Variable 0, VertexId.Pattern 1]

/-- The constraint directions recorded on example graph A. -/
def exDirsA : List (Nat × Direction) :=
  [(0, Direction.reverse), (1, Direction.canonical)]

/-- Example graph B: input variable 0 and two equal-cost constraints,
patterns 0 and 1, both over the already-bound variable 0. Their marginal
costs tie. -/
def exGraphB : Graph :=
  { elements :=
      [ (VertexId.Variable 0, PlannerVertex.Variable exVarInput)
      , (VertexId.Pattern 0, PlannerVertex.Constraint
          { vars := [0], unboundDir := Direction.canonical, costFn := exCostFn
            combined := { cost := 1, ioFactor := 1 }
            metaData := CostMetaData.direction Direction.canonical })
      , (VertexId.Pattern 1, PlannerVertex.Constraint
          { vars := [0], unboundDir := Direction.canonical, costFn := exCostFn
            combined := { cost := 1, ioFactor := 1 }
            metaData := CostMetaData.direction Direction.canonical }) ]
    inputVars := [0] }

/-- Example graph C: pattern 1 is the comparison var 0 < var 2 (both
operands variables). -/
def exGraphC : Graph :=
  { elements := [ (VertexId.Pattern 1, PlannerVertex.Comparison (some 0) (some 2)) ]
    inputVars := [] }

/-- Example beam step C: one constraint already in the step (step cost
MEM_COMPLEX_BRANCH_1) joined on variable 0, which the step produced. -/
def exStepC : PartialPlanStep :=
  { parentInlined := [], stepCost := CombinedCost.MEM_COMPLEX_BRANCH_1
    joinVariable := some 0, producedVariables := [0] }

/-- Example constraint W over variables [0, 1] with combined cost (1, 1). -/
def exConstraintW : ConstraintVertex :=
  { vars := [0, 1], unboundDir := Direction.canonical, costFn := exCostFn
    combined := { cost := 1, ioFactor := 1 }
    metaData := CostMetaData.direction Direction.canonical }

/-- Example variable planner W with expected output size 4. -/
def exVarW : VariableVertex :=
  { isInput := false, expectedOutputSize := fun _ => 4 }

/-- Example graph D: constraint W at pattern 0 and variable planner W at
variable 0. -/
def exGraphD : Graph :=
  { elements :=
      [ (VertexId.Pattern 0, PlannerVertex.Constraint exConstraintW)
      , (VertexId.Variable 0, PlannerVertex.Variable exVarW) ]
    inputVars := [] }

/-- Example beam step D: an open step with no join variable yet that has
produced variable 0. -/
def exStepD : PartialPlanStep :=
  { parentInlined := [], stepCost := CombinedCost.NOOP
    joinVariable := none, producedVariables := [0] }

/-- An example disjunction branch-cost function. -/
def exDisjCost : List VertexId → ElementCost := fun _ => ElementCost.NOOP

end Planner

namespace Planner

/-- Claim C6: for all ElementCost values A and B, A.chain(B) has
per_input = A.per_input + B.per_input * A.io_ratio,
per_output = A.per_output / B.io_ratio + B.per_output, and
io_ratio = A.io_ratio * B.io_ratio. -/
theorem elementCost_chain_eq (a b : ElementCost) :
    a.chain b =
      { per_input := a.per_input + b.per_input * a.ioFactor
        per_output := a.per_output / b.ioFactor + b.per_output
        ioFactor := a.ioFactor * b.ioFactor } := rfl

/-- Claim C7: for all CombinedCost values A and B, A.chain(B) has cost
A.cost + B.cost * A.io_ratio and io_ratio A.io_ratio * B.io_ratio floored
at 1e-9; and for every join size S, A.join(B, S) has additive cost and
io_ratio A.io_ratio * B.io_ratio / S clamped below at 1e-9. -/
theorem combinedCost_chain_join_eq (a b : CombinedCost) (s : ℚ) :
    a.chain b =
      { cost := a.cost + b.cost * a.ioFactor
        ioFactor := max (a.ioFactor * b.ioFactor) CombinedCost.minIoFloor } ∧
    a.join b s =
      { cost := a.cost + b.cost
        ioFactor := max (a.ioFactor * b.ioFactor / s) CombinedCost.minIoFloor } ∧
    CombinedCost.minIoFloor = 1 / 1000000000 :=
  ⟨rfl, rfl, rfl⟩

/-- Claim C10: ElementCost::NOOP is an identity for chaining: E.chain(NOOP)
equals E for every E, and NOOP.chain(E) equals E for every E whose io_ratio
is nonzero. -/
theorem elementCost_noop_identity :
    (∀ e : ElementCost, e.chain ElementCost.NOOP = e) ∧
    (∀ e : ElementCost, e.ioFactor ≠ 0 → ElementCost.NOOP.chain e = e) := by
  constructor
  · intro e
    cases e with
    | mk pi po r => simp [ElementCost.chain, ElementCost.NOOP]
  · intro e _h
    cases e with
    | mk pi po r => simp [ElementCost.chain, ElementCost.NOOP]

/-- Witness for C10 at the concrete ElementCost (2, 3, 5), whose io_ratio 5
is nonzero. -/
theorem elementCost_noop_identity_witness :
    ElementCost.chain { per_input := 2, per_output := 3, ioFactor := 5 } ElementCost.NOOP =
      { per_input := 2, per_output := 3, ioFactor := 5 } ∧
    ElementCost.NOOP.chain { per_input := 2, per_output := 3, ioFactor := 5 } =
      { per_input := 2, per_output := 3, ioFactor := 5 } :=
  ⟨elementCost_noop_identity.1 _, elementCost_noop_identity.2 _ (by norm_num)⟩

/-- Claim C9 (amended): planning of list-typed variables, like/contains
comparators and optional patterns fails eagerly, but through untyped todo!
panics rather than a typed error value: the panic message names the feature
for list variables and for the like and contains comparators, and the
optional-pattern panic carries no message at all. -/
theorem unsupported_features_fail_by_todo_panic :
    registerVariableCategory VariableCategory.objectList =
      Except.error (PlannerFailure.todoPanic (some UnsupportedFeature.listVariablePlanning)) ∧
    registerVariableCategory VariableCategory.thingList =
      Except.error (PlannerFailure.todoPanic (some UnsupportedFeature.listVariablePlanning)) ∧
    registerVariableCategory VariableCategory.attributeList =
      Except.error (PlannerFailure.todoPanic (some UnsupportedFeature.listVariablePlanning)) ∧
    registerVariableCategory VariableCategory.valueList =
      Except.error (PlannerFailure.todoPanic (some UnsupportedFeature.listVariablePlanning)) ∧
    registerComparatorEffect Comparator.like =
      Except.error (PlannerFailure.todoPanic (some UnsupportedFeature.likeOperator)) ∧
    registerComparatorEffect Comparator.containsCmp =
      Except.error (PlannerFailure.todoPanic (some UnsupportedFeature.containsOperator)) ∧
    planNestedPattern NestedPatternKind.optionalPattern =
      Except.error (PlannerFailure.todoPanic none) :=
  ⟨rfl, rfl, rfl, rfl, rfl, rfl, rfl⟩

/-- Counterexample to C9 as stated: a list-typed variable fails with a todo!
panic, not a typed error, and the optional-pattern failure identifies no
feature at all. -/
theorem unsupported_feature_typed_error_counterexample :
    registerVariableCategory VariableCategory.objectList =
      Except.error (PlannerFailure.todoPanic (some UnsupportedFeature.listVariablePlanning)) ∧
    PlannerFailure.isTypedError
      (PlannerFailure.todoPanic (some UnsupportedFeature.listVariablePlanning)) = false ∧
    planNestedPattern NestedPatternKind.optionalPattern =
      Except.error (PlannerFailure.todoPanic none) ∧
    PlannerFailure.isTypedError (PlannerFailure.todoPanic none) = false :=
  ⟨rfl, rfl, rfl, rfl⟩

/-- Claim C4 (amended): against an ordered prefix, a Constraint may be
placed iff it has no variables or at least one participating variable is
ordered; an Is may be placed iff at least one (not exactly one) of its two
sides is ordered; a Comparison may be placed iff every operand that is a
variable is already ordered. -/
theorem placement_validity_rules (ordered : List VertexId) :
    (∀ c : ConstraintVertex,
      (PlannerVertex.Constraint c).isValid ordered = true ↔
        (c.vars = [] ∨ ∃ v ∈ c.vars, VertexId.Variable v ∈ ordered)) ∧
    (∀ lhs rhs : Nat,
      (PlannerVertex.Is lhs rhs).isValid ordered = true ↔
        (VertexId.Variable lhs ∈ ordered ∨ VertexId.Variable rhs ∈ ordered)) ∧
    (∀ lhs rhs : Option Nat,
      (PlannerVertex.Comparison lhs rhs).isValid ordered = true ↔
        (∀ v ∈ lhs.toList ++ rhs.toList, VertexId.Variable v ∈ ordered)) := by
  refine ⟨?_, ?_, ?_⟩
  · intro c
    simp [PlannerVertex.isValid, memVar, List.any_eq_true, List.isEmpty_iff]
  · intro lhs rhs
    simp [PlannerVertex.isValid, memVar]
  · intro lhs rhs
    cases lhs <;> cases rhs <;>
      simp [PlannerVertex.isValid, memVar, Option.all, Option.toList]

/-- Witness for C4 on the one-element prefix [variable 0]: the Is pattern
over (0, 1) is placeable there. -/
theorem placement_validity_rules_witness :
    (PlannerVertex.Is 0 1).isValid [VertexId.Variable 0] = true :=
  ((placement_validity_rules [VertexId.Variable 0]).2.1 0 1).mpr (Or.inl (by simp))

/-- Counterexample to C4 as stated: the comparison of variables 0 and 1 is
not placeable when only variable 0 is ordered (the claim requires only one),
and the Is over (0, 1) is placeable when both sides are ordered (the claim
requires exactly one). -/
theorem placement_validity_counterexample :
    (PlannerVertex.Comparison (some 0) (some 1)).isValid [VertexId.Variable 0] = false ∧
    (PlannerVertex.Is 0 1).isValid
      [VertexId.Variable 0, VertexId.Variable 1] = true := by
  decide

/-- Claim C5 (amended): a Negation may be placed iff all of its shared
(captured) variables are ordered; a Disjunction may be placed iff all of its
input variables are ordered, and since DisjunctionPlanner::from_builder
creates the input-variable list empty, a disjunction planner as constructed
is placeable after every prefix, regardless of its shared variables. -/
theorem nested_pattern_validity (ordered : List VertexId) :
    (∀ (shared : List Nat) (planCost : ElementCost),
      (PlannerVertex.Negation shared planCost).isValid ordered = true ↔
        ∀ v ∈ shared, VertexId.Variable v ∈ ordered) ∧
    (∀ (inputVars shared : List Nat) (costFn : List VertexId → ElementCost),
      (PlannerVertex.Disjunction inputVars shared costFn).isValid ordered = true ↔
        ∀ v ∈ inputVars, VertexId.Variable v ∈ ordered) ∧
    (∀ (shared : List Nat) (costFn : List VertexId → ElementCost),
      (disjunctionFromBuilder shared costFn).isValid ordered = true) := by
  refine ⟨?_, ?_, ?_⟩
  · intro shared planCost
    simp [PlannerVertex.isValid, memVar, List.all_eq_true]
  · intro inputVars shared costFn
    simp [PlannerVertex.isValid, memVar, List.all_eq_true]
  · intro shared costFn
    rfl

/-- Witness for C5 on the prefix [variable 0]: a negation sharing exactly
variable 0 is placeable there. -/
theorem nested_pattern_validity_witness :
    (PlannerVertex.Negation [0] ElementCost.NOOP).isValid [VertexId.Variable 0] = true :=
  ((nested_pattern_validity [VertexId.Variable 0]).1 [0] ElementCost.NOOP).mpr (by simp)

/-- Counterexample to C5 as stated: a disjunction built by from_builder with
shared variable 0 is accepted by is_valid on the empty prefix even though
its shared variable is not ordered. -/
theorem nested_pattern_validity_counterexample :
    (disjunctionFromBuilder [0] exDisjCost).isValid [] = true ∧
    VertexId.Variable 0 ∉ ([] : List VertexId) :=
  ⟨rfl, by simp⟩

/-- Folding the min_by step only ever returns the accumulator or a list
element. -/
theorem chooseMinStep_fold_mem :
    ∀ (l : List (VertexId × ℚ)) (acc : Option (VertexId × ℚ)) (c : VertexId × ℚ),
      l.foldl chooseMinStep acc = some c → acc = some c ∨ c ∈ l := by
  intro l
  induction l with
  | nil => intro acc c h; exact Or.inl h
  | cons b bs ih =>
    intro acc c h
    rw [List.foldl_cons] at h
    rcases ih (chooseMinStep acc b) c h with h' | h'
    · cases acc with
      | none =>
        have hb : b = c := by
          have := h'
          simp only [chooseMinStep] at this
          exact Option.some.inj this
        exact Or.inr (hb ▸ List.mem_cons_self b bs)
      | some a =>
        by_cases hlt : b.2 < a.2
        · have hb : b = c := by
            simp only [chooseMinStep, if_pos hlt] at h'
            exact Option.some.inj h'
          exact Or.inr (hb ▸ List.mem_cons_self b bs)
        · have ha : a = c := by
            simp only [chooseMinStep, if_neg hlt] at h'
            exact Option.some.inj h'
          exact Or.inl (by rw [ha])
    · exact Or.inr (List.mem_cons_of_mem _ h')

/-- min_by returns an element of its input list. -/
theorem chooseMin_mem (l : List (VertexId × ℚ)) (c : VertexId × ℚ)
    (h : chooseMin l = some c) : c ∈ l := by
  rcases chooseMinStep_fold_mem l none c h with h' | h'
  · exact absurd h' (by simp)
  · exact h'

/-- An accumulator at least as cheap as every remaining candidate survives
the min_by fold. -/
theorem chooseMinStep_fold_keep :
    ∀ (l : List (VertexId × ℚ)) (a : VertexId × ℚ),
      (∀ b ∈ l, ¬ b.2 < a.2) → l.foldl chooseMinStep (some a) = some a := by
  intro l
  induction l with
  | nil => intro a _; rfl
  | cons b bs ih =>
    intro a h
    rw [List.foldl_cons]
    have hstep : chooseMinStep (some a) b = some a := by
      simp only [chooseMinStep, if_neg (h b (List.mem_cons_self b bs))]
    rw [hstep]
    exact ih a (fun x hx => h x (List.mem_cons_of_mem _ hx))

/-- is_valid is monotone under extending the ordered prefix: every
implementation only tests membership of required variables positively. -/
theorem isValid_mono (pv : PlannerVertex) (ord1 ord2 : List VertexId)
    (hsub : ∀ x ∈ ord1, x ∈ ord2) (h : pv.isValid ord1 = true) :
    pv.isValid ord2 = true := by
  cases pv with
  | Variable vv => simp [PlannerVertex.isValid] at h
  | Constraint c =>
    simp only [PlannerVertex.isValid, Bool.or_eq_true, List.isEmpty_iff, List.any_eq_true,
      memVar, decide_eq_true_eq] at h ⊢
    rcases h with h | ⟨v, hv, hm⟩
    · exact Or.inl h
    · exact Or.inr ⟨v, hv, hsub _ hm⟩
  | Is lhs rhs =>
    simp only [PlannerVertex.isValid, Bool.or_eq_true, memVar, decide_eq_true_eq] at h ⊢
    rcases h with h | h
    · exact Or.inl (hsub _ h)
    · exact Or.inr (hsub _ h)
  | Comparison lhs rhs =>
    cases lhs with
    | none =>
      cases rhs with
      | none => simp [PlannerVertex.isValid, Option.all]
      | some rv =>
        simp only [PlannerVertex.isValid, Option.all, Bool.true_and, Bool.and_eq_true,
          memVar, decide_eq_true_eq] at h ⊢
        exact hsub _ h
    | some lv =>
      cases rhs with
      | none =>
        simp only [PlannerVertex.isValid, Option.all, Bool.and_true, Bool.and_eq_true,
          memVar, decide_eq_true_eq] at h ⊢
        exact hsub _ h
      | some rv =>
        simp only [PlannerVertex.isValid, Option.all, Bool.and_eq_true,
          memVar, decide_eq_true_eq] at h ⊢
        exact ⟨hsub _ h.1, hsub _ h.2⟩
  | Expression inputs output =>
    simp only [PlannerVertex.isValid, List.all_eq_true, memVar, decide_eq_true_eq] at h ⊢
    exact fun v hv => hsub _ (h v hv)
  | FunctionCall arguments assigned cost combined =>
    simp only [PlannerVertex.isValid, List.all_eq_true, memVar, decide_eq_true_eq] at h ⊢
    exact fun v hv => hsub _ (h v hv)
  | Negation shared planCost =>
    simp only [PlannerVertex.isValid, List.all_eq_true, memVar, decide_eq_true_eq] at h ⊢
    exact fun v hv => hsub _ (h v hv)
  | Disjunction inputVars shared costFn =>
    simp only [PlannerVertex.isValid, List.all_eq_true, memVar, decide_eq_true_eq] at h ⊢
    exact fun v hv => hsub _ (h v hv)

/-- A list made only of variable vertices has a (vacuously) valid placement. -/
theorem validPlacement_of_vars (g : Graph) (pl : List VertexId)
    (h : ∀ x ∈ pl, ∃ v, x = VertexId.Variable v) : ValidPlacement g pl := by
  intro i p pv hget _hfind
  rcases h _ (List.get?_mem hget) with ⟨v, hv⟩
  exact absurd hv (by simp)

/-- Appending variable vertices preserves valid placement. -/
theorem validPlacement_append_vars (g : Graph) (pl ext : List VertexId)
    (h : ValidPlacement g pl) (hvars : ∀ x ∈ ext, ∃ v, x = VertexId.Variable v) :
    ValidPlacement g (pl ++ ext) := by
  intro i p pv hget hfind
  by_cases hi : i < pl.length
  · rw [List.get?_append hi] at hget
    rw [List.take_append_of_le_length (le_of_lt hi)]
    exact h i p pv hget hfind
  · push_neg at hi
    rw [List.get?_append_right hi] at hget
    rcases hvars _ (List.get?_mem hget) with ⟨v, hv⟩
    exact absurd hv (by simp)

/-- Appending one vertex preserves valid placement provided that, if it is a
pattern, it is valid against the current plan. -/
theorem validPlacement_append_one (g : Graph) (pl : List VertexId) (x : VertexId)
    (h : ValidPlacement g pl)
    (hx : ∀ p pv, x = VertexId.Pattern p → g.find (VertexId.Pattern p) = some pv →
      pv.isValid pl = true) :
    ValidPlacement g (pl ++ [x]) := by
  intro i p pv hget hfind
  by_cases hi : i < pl.length
  · rw [List.get?_append hi] at hget
    rw [List.take_append_of_le_length (le_of_lt hi)]
    exact h i p pv hget hfind
  · push_neg at hi
    rw [List.get?_append_right hi] at hget
    have hzero : i - pl.length = 0 := by
      cases hd : i - pl.length with
      | zero => rfl
      | succ k => rw [hd] at hget; simp at hget
    rw [hzero] at hget
    simp only [List.get?] at hget
    have hxp : x = VertexId.Pattern p := Option.some.inj hget
    have hi' : i = pl.length := by omega
    rw [hi', List.take_left]
    exact hx p pv hxp hfind

/-- The produced-variable pushes of finalize_step only append variable
vertices to the plan. -/
theorem pushProducedVar_fold_plan :
    ∀ (vs : List Nat) (pr : List VertexId × List VertexId),
      ∃ ext, (vs.foldl pushProducedVar pr).1 = pr.1 ++ ext ∧
        ∀ x ∈ ext, ∃ v, x = VertexId.Variable v := by
  intro vs
  induction vs with
  | nil => intro pr; exact ⟨[], by simp, by simp⟩
  | cons v vs ih =>
    intro pr
    rcases ih (pushProducedVar pr v) with ⟨ext, hpl, hv⟩
    by_cases hm : VertexId.Variable v ∈ pr.1
    · refine ⟨ext, ?_, hv⟩
      rw [List.foldl_cons, hpl]
      simp [pushProducedVar, hm]
    · refine ⟨VertexId.Variable v :: ext, ?_, ?_⟩
      · rw [List.foldl_cons, hpl]
        simp [pushProducedVar, hm]
      · intro x hx
        rcases List.mem_cons.mp hx with rfl | hx'
        · exact ⟨v, rfl⟩
        · exact hv x hx'

/-- The variable pushes of the greedy catch-all branch only append variable
vertices to the plan. -/
theorem pushPlanVar_fold_plan :
    ∀ (vs : List Nat) (pl : List VertexId),
      ∃ ext, vs.foldl pushPlanVar pl = pl ++ ext ∧
        ∀ x ∈ ext, ∃ v, x = VertexId.Variable v := by
  intro vs
  induction vs with
  | nil => intro pl; exact ⟨[], by simp, by simp⟩
  | cons v vs ih =>
    intro pl
    rcases ih (pushPlanVar pl v) with ⟨ext, hpl, hv⟩
    by_cases hm : VertexId.Variable v ∈ pl
    · refine ⟨ext, ?_, hv⟩
      rw [List.foldl_cons, hpl]
      simp [pushPlanVar, hm]
    · refine ⟨VertexId.Variable v :: ext, ?_, ?_⟩
      · rw [List.foldl_cons, hpl]
        simp [pushPlanVar, hm]
      · intro x hx
        rcases List.mem_cons.mp hx with rfl | hx'
        · exact ⟨v, rfl⟩
        · exact hv x hx'

/-- finalize_step extends the plan by variable vertices only. -/
theorem finalizeStep_plan (st : GreedyState) :
    ∃ ext, (finalizeStep st).plan = st.plan ++ ext ∧
      ∀ x ∈ ext, ∃ v, x = VertexId.Variable v := by
  cases hsv : st.sortVar with
  | none =>
    rcases pushProducedVar_fold_plan st.produced (st.plan, st.remaining) with ⟨ext, hpl, hv⟩
    refine ⟨ext, ?_, hv⟩
    simp only [finalizeStep, hsv]
    exact hpl
  | some v =>
    rcases pushProducedVar_fold_plan st.produced
      (st.plan ++ [VertexId.Variable v], st.remaining.erase (VertexId.Variable v)) with
      ⟨ext, hpl, hv⟩
    refine ⟨VertexId.Variable v :: ext, ?_, ?_⟩
    · simp only [finalizeStep, hsv]
      rw [hpl]
      simp
    · intro x hx
      rcases List.mem_cons.mp hx with rfl | hx'
      · exact ⟨v, rfl⟩
      · exact hv x hx'

/-- finalize_step preserves valid placement. -/
theorem validPlacement_finalizeStep (g : Graph) (st : GreedyState)
    (h : ValidPlacement g st.plan) : ValidPlacement g (finalizeStep st).plan := by
  rcases finalizeStep_plan st with ⟨ext, hpl, hv⟩
  rw [hpl]
  exact validPlacement_append_vars g _ _ h hv

/-- The greedy choice function only returns vertices of the graph that are
valid against the current plan (they survived the is_valid filter). -/
theorem greedyChoose_spec (g : Graph) (st : GreedyState) (next : VertexId)
    (pv : PlannerVertex) (h : greedyChoose g st = some (next, pv)) :
    g.find next = some pv ∧ pv.isValid st.plan = true := by
  unfold greedyChoose at h
  cases hcm : chooseMin (greedyCandidates g st) with
  | none => rw [hcm] at h; exact absurd h (by simp)
  | some nc =>
    obtain ⟨n, cst⟩ := nc
    rw [hcm] at h
    rcases Option.map_eq_some'.mp h with ⟨pv', hfind', heq⟩
    injection heq with he1 he2
    subst he1
    subst he2
    have hmem := chooseMin_mem _ _ hcm
    unfold greedyCandidates at hmem
    rcases List.mem_map.mp hmem with ⟨e, hef, heq2⟩
    injection heq2 with he3 _
    subst he3
    rcases List.mem_filter.mp hef with ⟨_hrem, hpred⟩
    rw [hfind'] at hpred
    exact ⟨hfind', hpred⟩

/-- The catch-all greedy branch preserves valid placement when the chosen
vertex was valid against the plan before the step. -/
theorem validPlacement_greedyOtherStep (g : Graph) (st : GreedyState) (next : VertexId)
    (pv : PlannerVertex) (hv : ValidPlacement g st.plan)
    (hfind : g.find next = some pv) (hvalid : pv.isValid st.plan = true) :
    ValidPlacement g (greedyOtherStep st next pv).plan := by
  rcases finalizeStep_plan st with ⟨ext1, hpl1, _hv1⟩
  have h1 : ValidPlacement g (finalizeStep st).plan := validPlacement_finalizeStep g st hv
  have hsub : ∀ x ∈ st.plan, x ∈ (finalizeStep st).plan := by
    intro x hx
    rw [hpl1]
    exact List.mem_append_left _ hx
  have h2 : ValidPlacement g ((finalizeStep st).plan ++ [next]) := by
    refine validPlacement_append_one g _ next h1 ?_
    intro p pv' hxp hfindp
    rw [hxp] at hfind
    rw [hfindp] at hfind
    injection hfind with h3
    rw [h3]
    exact isValid_mono pv st.plan _ hsub hvalid
  rcases pushPlanVar_fold_plan pv.variablesList ((finalizeStep st).plan ++ [next]) with
    ⟨ext2, hpl2, hv2⟩
  show ValidPlacement g
    (pv.variablesList.foldl pushPlanVar ((finalizeStep st).plan ++ [next]))
  rw [hpl2]
  exact validPlacement_append_vars g _ _ h2 hv2

/-- The greedy constraint branch preserves valid placement when the chosen
vertex was valid against the plan before the step. -/
theorem validPlacement_greedyConstraintStep (g : Graph) (st : GreedyState)
    (next : VertexId) (c : ConstraintVertex) (hv : ValidPlacement g st.plan)
    (hfind : g.find next = some (PlannerVertex.Constraint c))
    (hvalid : (PlannerVertex.Constraint c).isValid st.plan = true) :
    ValidPlacement g (greedyConstraintStep g st next c).plan := by
  have hpre : ValidPlacement g (greedyConstraintPre st next c).plan := by
    show ValidPlacement g (st.plan ++ [next])
    refine validPlacement_append_one g st.plan next hv ?_
    intro p pv' hxp hfindp
    rw [hxp] at hfind
    rw [hfindp] at hfind
    injection hfind with h3
    rw [h3]
    exact hvalid
  exact validPlacement_finalizeStep g _ hpre

/-- The greedy loop preserves valid placement of the plan under
construction. -/
theorem greedyGo_validPlacement (g : Graph) :
    ∀ (fuel : Nat) (st : GreedyState) (out : List VertexId) (ds : List (Nat × Direction)),
      greedyGo g fuel st = some (out, ds) → ValidPlacement g st.plan →
      ValidPlacement g out := by
  intro fuel
  induction fuel with
  | zero =>
    intro st out ds h hv
    unfold greedyGo at h
    split at h
    · injection h with h1
      injection h1 with h2 h3
      rw [← h2]
      exact hv
    · exact absurd h (by simp)
  | succ fuel ih =>
    intro st out ds h hv
    unfold greedyGo at h
    split at h
    · injection h with h1
      injection h1 with h2 h3
      rw [← h2]
      exact hv
    · cases hgc : greedyChoose g st with
      | none => rw [hgc] at h; exact absurd h (by simp)
      | some nc =>
        obtain ⟨next, pv⟩ := nc
        rw [hgc] at h
        obtain ⟨hfind, hvalid⟩ := greedyChoose_spec g st next pv hgc
        cases pv with
        | Variable vv =>
          exact ih _ _ _ h (validPlacement_finalizeStep g st hv)
        | Constraint c =>
          exact ih _ _ _ h (validPlacement_greedyConstraintStep g st next c hv hfind hvalid)
        | Is lhs rhs =>
          exact ih _ _ _ h (validPlacement_greedyOtherStep g st next _ hv hfind hvalid)
        | Comparison lhs rhs =>
          exact ih _ _ _ h (validPlacement_greedyOtherStep g st next _ hv hfind hvalid)
        | Expression inputs output =>
          exact ih _ _ _ h (validPlacement_greedyOtherStep g st next _ hv hfind hvalid)
        | FunctionCall arguments assigned cost combined =>
          exact ih _ _ _ h (validPlacement_greedyOtherStep g st next _ hv hfind hvalid)
        | Negation shared planCost =>
          exact ih _ _ _ h (validPlacement_greedyOtherStep g st next _ hv hfind hvalid)
        | Disjunction inputVars shared costFn =>
          exact ih _ _ _ h (validPlacement_greedyOtherStep g st next _ hv hfind hvalid)

/-- Claim C1 (amended): for every ordering output by the greedy planner,
every position i holding a pattern vertex satisfies
is_valid(ordering[0..i], graph); the claim as stated also covers variable
vertices, but PlannerVertex::is_valid is constantly false on variables, so
the prefix-validity invariant holds for the pattern vertices only. -/
theorem greedy_ordering_validity (g : Graph) (patternIter : List Nat)
    (ordering : List VertexId) (ds : List (Nat × Direction))
    (h : initialiseGreedyOrdering g patternIter = some (ordering, ds)) :
    ValidPlacement g ordering := by
  unfold initialiseGreedyOrdering at h
  refine greedyGo_validPlacement g _ _ _ _ h ?_
  refine validPlacement_of_vars g _ ?_
  intro x hx
  rcases List.mem_map.mp hx with ⟨v, _, rfl⟩
  exact ⟨v, rfl⟩

/-- Witness for C1: the greedy run on example graph A yields the ordering
[variable 1, pattern 0, variable 0, pattern 1] and its pattern vertices are
valid against their prefixes. -/
theorem greedy_ordering_validity_witness :
    initialiseGreedyOrdering exGraphA [0, 1] = some (exOrdA, exDirsA) ∧
    ValidPlacement exGraphA exOrdA :=
  ⟨by decide, greedy_ordering_validity exGraphA [0, 1] exOrdA exDirsA (by decide)⟩

/-- Counterexample to C1 as stated: position 2 of the greedy output on
example graph A holds variable 0, and is_valid of that variable vertex on
the prefix before it is false (variables never satisfy is_valid). -/
theorem greedy_ordering_validity_counterexample :
    initialiseGreedyOrdering exGraphA [0, 1] = some (exOrdA, exDirsA) ∧
    exOrdA.get? 2 = some (VertexId.Variable 0) ∧
    (exGraphA.find (VertexId.Variable 0)).map
      (fun pv => pv.isValid (exOrdA.take 2)) = some false := by
  decide

/-- Claim C2 (amended): in the greedy search the step is finalized
immediately after every selected constraint pattern: the resulting state
has no open sort variable and no pending produced variables, and the plan
extends by the constraint followed only by variable vertices, so no
subsequently selected pattern is ever admitted into a still-open step. -/
theorem greedy_constraint_closes_step (g : Graph) (st : GreedyState) (next : VertexId)
    (c : ConstraintVertex) :
    (greedyConstraintStep g st next c).sortVar = none ∧
    (greedyConstraintStep g st next c).produced = [] ∧
    ∃ ext, (greedyConstraintStep g st next c).plan = (st.plan ++ [next]) ++ ext ∧
      ∀ x ∈ ext, ∃ v, x = VertexId.Variable v := by
  refine ⟨rfl, rfl, ?_⟩
  rcases finalizeStep_plan (greedyConstraintPre st next c) with ⟨ext, hpl, hv⟩
  exact ⟨ext, hpl, hv⟩

/-- Counterexample to C2 as stated: on example graph A, pattern 0 sets sort
variable 0 and pattern 1 is a constraint sharing that sort variable, chosen
immediately afterwards; yet the ordering produced is [variable 1, pattern 0,
variable 0, pattern 1]: the sort variable was appended (the step finalized)
before pattern 1 was selected, instead of pattern 1 extending the still-open
step as [variable 1, pattern 0, pattern 1, variable 0]. -/
theorem greedy_step_extension_counterexample :
    initialiseGreedyOrdering exGraphA [0, 1] = some (exOrdA, exDirsA) ∧
    (exGraphA.find (VertexId.Pattern 1)).map PlannerVertex.variablesList = some [0] ∧
    exOrdA ≠ [VertexId.Variable 1, VertexId.Pattern 0, VertexId.Pattern 1,
      VertexId.Variable 0] := by
  decide

/-- Claim C8 (amended): the planners are deterministic only relative to the
hash-seeded iteration order of the vertex sets; a cost tie between
candidates is broken in favour of the first-encountered candidate in
iteration order (min_by keeps the first minimum), not in favour of the
lower pattern id. -/
theorem greedy_tie_break_first_in_iteration (a : VertexId × ℚ)
    (l : List (VertexId × ℚ)) (h : ∀ b ∈ l, a.2 ≤ b.2) :
    chooseMin (a :: l) = some a := by
  unfold chooseMin
  rw [List.foldl_cons]
  have hstep : chooseMinStep none a = some a := rfl
  rw [hstep]
  exact chooseMinStep_fold_keep l a (fun b hb => not_lt.mpr (h b hb))

/-- Witness for C8: with two equal-cost candidates (pattern 0 first,
pattern 1 second), min_by keeps the first. -/
theorem greedy_tie_break_witness :
    chooseMin [(VertexId.Pattern 0, (2 : ℚ)), (VertexId.Pattern 1, (2 : ℚ))] =
      some (VertexId.Pattern 0, (2 : ℚ)) :=
  greedy_tie_break_first_in_iteration (VertexId.Pattern 0, (2 : ℚ))
    [(VertexId.Pattern 1, (2 : ℚ))] (by decide)

/-- Counterexample to C8 as stated: on example graph B the two constraints
have identical marginal costs, yet two runs that differ only in the
HashSet iteration order of the remaining patterns produce different plans,
and the [1, 0]-order run picks pattern 1 first despite pattern 0 having the
lower id. -/
theorem greedy_determinism_counterexample :
    initialiseGreedyOrdering exGraphB [0, 1] =
      some ([VertexId.Variable 0, VertexId.Pattern 0, VertexId.Pattern 1],
        [(0, Direction.canonical), (1, Direction.canonical)]) ∧
    initialiseGreedyOrdering exGraphB [1, 0] =
      some ([VertexId.Variable 0, VertexId.Pattern 1, VertexId.Pattern 0],
        [(1, Direction.canonical), (0, Direction.canonical)]) ∧
    initialiseGreedyOrdering exGraphB [0, 1] ≠ initialiseGreedyOrdering exGraphB [1, 0] := by
  decide

/-- Claim C3 (amended): in beam-search step extension a candidate is
joinable iff it shares exactly one produced variable with the step, equal to
the step's join variable when one exists; a joinable constraint's step cost
is the join of the current step cost with the constraint cost at the join
variable's expected size (io-ratio divided by the join size); a joinable
comparison REPLACES the step cost with CombinedCost::NOOP (zero cost, unit
io-ratio) rather than leaving it unchanged; a non-joinable constraint or
comparison is costed by cost_and_metadata; Is, Expression and FunctionCall
patterns never join; Negation and Disjunction reach the todo!() in
ConjunctionPlan::combined_cost, i.e. panic. -/
theorem evaluateJoinability_rules (g : Graph) (s : PartialPlanStep) (p : Nat)
    (pv : PlannerVertex) (hfind : g.find (VertexId.Pattern p) = some pv) :
    (∀ v, joinCandidateOf s pv = some v ↔
      (pv.variablesList.filter (fun u => decide (u ∈ s.producedVariables)) = [v] ∧
        (s.joinVariable = none ∨ s.joinVariable = some v))) ∧
    (∀ c v vv, pv = PlannerVertex.Constraint c → joinCandidateOf s pv = some v →
      g.find (VertexId.Variable v) = some (PlannerVertex.Variable vv) →
      evaluateJoinability g s p =
        some (s.stepCost.join c.combined (vv.expectedOutputSize s.parentInlined),
          c.metaData, some v)) ∧
    (∀ c, pv = PlannerVertex.Constraint c → joinCandidateOf s pv = none →
      evaluateJoinability g s p = some (c.combined, c.metaData, none)) ∧
    (∀ lhs rhs v, pv = PlannerVertex.Comparison lhs rhs → joinCandidateOf s pv = some v →
      evaluateJoinability g s p =
        some (CombinedCost.NOOP, CostMetaData.noMetaData, some v)) ∧
    (∀ lhs rhs, pv = PlannerVertex.Comparison lhs rhs → joinCandidateOf s pv = none →
      evaluateJoinability g s p =
        some (CombinedCost.MEM_COMPLEX_BRANCH_1, CostMetaData.noMetaData, none)) ∧
    (∀ lhs rhs, pv = PlannerVertex.Is lhs rhs →
      evaluateJoinability g s p =
        some (CombinedCost.MEM_COMPLEX_BRANCH_1, CostMetaData.noMetaData, none)) ∧
    (∀ inputs output, pv = PlannerVertex.Expression inputs output →
      evaluateJoinability g s p =
        some (CombinedCost.MEM_COMPLEX_BRANCH_1, CostMetaData.noMetaData, none)) ∧
    (∀ arguments assigned cost combined,
      pv = PlannerVertex.FunctionCall arguments assigned cost combined →
      evaluateJoinability g s p = some (combined, CostMetaData.noMetaData, none)) ∧
    (∀ shared planCost, pv = PlannerVertex.Negation shared planCost →
      evaluateJoinability g s p = none) ∧
    (∀ inputVars shared costFn, pv = PlannerVertex.Disjunction inputVars shared costFn →
      evaluateJoinability g s p = none) := by
  refine ⟨?_, ?_, ?_, ?_, ?_, ?_, ?_, ?_, ?_, ?_⟩
  · intro v
    unfold joinCandidateOf
    cases hf : pv.variablesList.filter (fun u => decide (u ∈ s.producedVariables)) with
    | nil => simp
    | cons x xs =>
      cases xs with
      | nil =>
        cases hjv : s.joinVariable with
        | none => simp
        | some y =>
          by_cases hxy : y = x
          · subst hxy
            simp
          · simp [hxy]
            rintro rfl h
            exact hxy h
      | cons x2 xs2 => simp
  · intro c v vv hpv hjoin hfindv
    subst hpv
    simp only [evaluateJoinability, hfind, hjoin, hfindv]
  · intro c hpv hjoin
    subst hpv
    simp only [evaluateJoinability, hfind, hjoin]
  · intro lhs rhs v hpv hjoin
    subst hpv
    simp only [evaluateJoinability, hfind, hjoin]
  · intro lhs rhs hpv hjoin
    subst hpv
    simp only [evaluateJoinability, hfind, hjoin]
  · intro lhs rhs hpv
    subst hpv
    simp only [evaluateJoinability, hfind, PlannerVertex.costAndMetadata, Option.map_some']
  · intro inputs output hpv
    subst hpv
    simp only [evaluateJoinability, hfind, PlannerVertex.costAndMetadata, Option.map_some']
  · intro arguments assigned cost combined hpv
    subst hpv
    simp only [evaluateJoinability, hfind, PlannerVertex.costAndMetadata, Option.map_some']
  · intro shared planCost hpv
    subst hpv
    simp only [evaluateJoinability, hfind, PlannerVertex.costAndMetadata, Option.map_none']
  · intro inputVars shared costFn hpv
    subst hpv
    simp only [evaluateJoinability, hfind, PlannerVertex.costAndMetadata, Option.map_none']

/-- Witness for C3: on example graph D, the constraint at pattern 0 shares
exactly the produced variable 0 with the open step and is joined there, its
step cost being the join of the step cost with the constraint cost at
variable 0's expected output size. -/
theorem evaluateJoinability_rules_witness :
    evaluateJoinability exGraphD exStepD 0 =
      some (exStepD.stepCost.join exConstraintW.combined
        (exVarW.expectedOutputSize exStepD.parentInlined),
        exConstraintW.metaData, some 0) :=
  (evaluateJoinability_rules exGraphD exStepD 0
    (PlannerVertex.Constraint exConstraintW) rfl).2.1 exConstraintW 0 exVarW rfl
    (by decide) rfl

/-- Counterexample to C3 as stated: on example graph C the comparison at
pattern 1 is joinable with the open step (join variable 0), and the updated
step cost returned is CombinedCost::NOOP, which is NOT the unchanged prior
step cost: the step had already accumulated MEM_COMPLEX_BRANCH_1, so the
comparison's admission erases the step's accumulated cost instead of
contributing zero marginal cost. -/
theorem comparison_join_cost_counterexample :
    evaluateJoinability exGraphC exStepC 1 =
      some (CombinedCost.NOOP, CostMetaData.noMetaData, some 0) ∧
    exStepC.stepCost = CombinedCost.MEM_COMPLEX_BRANCH_1 ∧
    CombinedCost.NOOP ≠ exStepC.stepCost := by
  decide

end Planner
